import Mathlib

/-!
# Verification of the D1 persistence adapter and initialization protocol

Shallow embedding of `backend/app/d1_adapter.py` (query builder,
unit-of-work session), `backend/app/initialization.py` (seed sequencer)
and the halqa-supervisor handlers of `backend/app/routes/admin.py`,
together with proofs of the specified properties.
-/

set_option maxRecDepth 4096

namespace D1

/-- A Python runtime value as it appears in `obj.__dict__`, in filter
tuples and in D1 result rows.  `null` is Python `None`; `date iso`
is a `datetime.date`/`datetime.datetime` object carrying the string its
`isoformat()` would produce; `rel t` is a related ORM object (it has a
`__tablename__`); `listV n` is a Python list value (relationship
collection of length `n`). -/
inductive Val where
  | null
  | int (n : Int)
  | str (s : String)
  | date (iso : String)
  | rel (table : String)
  | listV (n : Nat)
  deriving Repr, DecidableEq

/-- Python `str.strip()` of leading/trailing whitespace, over the
character list. -/
def pyStrip (s : String) : List Char :=
  ((s.toList.dropWhile Char.isWhitespace).reverse.dropWhile
    Char.isWhitespace).reverse

/-- Python `str.strip()` returning a string. -/
def pyTrim (s : String) : String :=
  String.mk (pyStrip s)

/-- Python `str.lower()` (ASCII case folding suffices for the emails and
names in play). -/
def pyLower (s : String) : String :=
  String.mk (s.toList.map Char.toLower)

/-- `isinstance(value, (date, datetime))` → serialize with `isoformat()`
(`d1_adapter.py` does this in `filter_by`, `_insert_object`,
`_update_object` and `_parse_sqlalchemy_condition`). -/
def serialize (v : Val) : Val :=
  match v with
  | .date iso => .str iso
  | v => v

/-- A filter tuple accumulated in `D1Query._filters`:
`('param', field, op, value)`, `('in', field, values)` or
`('or', sub_filters)` (`d1_adapter.py` line 159). -/
inductive Filter where
  | param (field : String) (op : String) (value : Val)
  | inSet (field : String) (values : List Val)
  | orF (subs : List Filter)

/-- A WHERE fragment as built by `D1Query._execute_query._build_filter`
(`d1_adapter.py` lines 257-281), with its bound values attached to the
placeholders they fill.  `falseF` is the fragment the code writes for an
empty `IN` set. -/
inductive Frag where
  | cmp (field : String) (op : String) (value : Val)
  | inList (field : String) (values : List Val)
  | falseF
  | orFr (subs : List Frag)

/-- Python `sep.join(parts)`. -/
def joinSep (sep : String) : List String → String
  | [] => ""
  | [x] => x
  | x :: y :: rest => x ++ sep ++ joinSep sep (y :: rest)

/-- `', '.join(['?'] * n)` — the placeholder list for an `IN` clause. -/
def placeholders (n : Nat) : String :=
  joinSep ", " (List.replicate n "?")

mutual

/-- `_build_filter f` (`d1_adapter.py` lines 257-281): the fragment built
for one filter tuple (`none` when the code returns `None`).  A `param`
filter appends its value and yields `field op ?`; a nonempty `in` filter
appends its values and yields `field IN (?, …)`; an empty `in` filter
yields the literal `1 = 0` and appends nothing; an `or` filter joins the
fragments of its sub-filters, dropping `None` members, and yields `None`
itself when no member produced a clause. -/
def buildFrag : Filter → Option Frag
  | .param field op value => some (.cmp field op value)
  | .inSet field values =>
      if values.isEmpty then some .falseF else some (.inList field values)
  | .orF subs =>
      match buildFragList subs with
      | [] => none
      | l => some (.orFr l)

/-- The fragments of a list of sub-filters, skipping those whose clause
is `None` (the `if clause:` guard in the `'or'` branch). -/
def buildFragList : List Filter → List Frag
  | [] => []
  | f :: rest =>
      match buildFrag f with
      | none => buildFragList rest
      | some fr => fr :: buildFragList rest

end

mutual

/-- The SQL text of a fragment, exactly as `_build_filter` concatenates
it: `f"{field} {op} ?"`, `f"{field} IN ({placeholders})"`, `"1 = 0"`, or
`"(" + " OR ".join(...) + ")"`. -/
def Frag.toSql : Frag → String
  | .cmp field op _ => field ++ " " ++ op ++ " ?"
  | .inList field values => field ++ " IN (" ++ placeholders values.length ++ ")"
  | .falseF => "1 = 0"
  | .orFr subs => "(" ++ joinSep " OR " (Frag.toSqlList subs) ++ ")"

/-- SQL texts of a fragment list, in order. -/
def Frag.toSqlList : List Frag → List String
  | [] => []
  | f :: rest => Frag.toSql f :: Frag.toSqlList rest

end

mutual

/-- The values `_build_filter` appends to the shared `params` list while
building one fragment, in append order. -/
def Frag.binds : Frag → List Val
  | .cmp _ _ value => [value]
  | .inList _ values => values
  | .falseF => []
  | .orFr subs => Frag.bindsList subs

/-- Concatenated bound values of a fragment list. -/
def Frag.bindsList : List Frag → List Val
  | [] => []
  | f :: rest => Frag.binds f ++ Frag.bindsList rest

end

/-- A result row: a column-name/value dictionary (the Python dicts
`_execute_query` normalizes every row into). -/
def Row := List (String × Val)

instance : DecidableEq Row := by
  unfold Row
  infer_instance

/-- Dictionary lookup (first, hence only, occurrence of the key). -/
def dictGet (d : List (String × Val)) (k : String) : Option Val :=
  (d.find? (fun p => p.1 == k)).map (fun p => p.2)

/-- Python dict assignment `d[k] = v`: overwrite in place if the key
exists, else append. -/
def dictAssign (d : List (String × Val)) (k : String) (v : Val) :
    List (String × Val) :=
  if d.any (fun p => p.1 == k) then
    d.map (fun p => if p.1 == k then (k, v) else p)
  else d ++ [(k, v)]

/-- Modelled external collaborator: SQLite `LIKE` matching (`%` matches
any run of characters, `_` any single character, letters compared
ASCII-case-insensitively).  First argument is the pattern. -/
def likeMatches : List Char → List Char → Bool
  | [], s => s.isEmpty
  | '%' :: ps, [] => likeMatches ps []
  | '%' :: ps, c :: s' =>
      likeMatches ps (c :: s') || likeMatches ('%' :: ps) s'
  | _ :: _, [] => false
  | p :: ps, c :: s' =>
      (p == '_' || p.toLower == c.toLower) && likeMatches ps s'
  termination_by p s => (p.length, s.length)

/-- SQL ordering on stored values (used by `<`, `<=`, `>`, `>=`):
integers numerically, strings lexicographically; `NULL` and mixed types
never satisfy an inequality. -/
def valLt : Val → Val → Bool
  | .int a, .int b => a < b
  | .str a, .str b => a < b
  | _, _ => false

/-- Modelled external collaborator: the D1/SQLite engine evaluating one
emitted comparison `cell OP bound` under SQL semantics (`NULL` compares
unequal to everything except via `IS` / `IS NOT`). -/
def cmpHolds (op : String) (cell : Val) (bound : Val) : Bool :=
  match op with
  | "=" => cell != .null && bound != .null && cell == bound
  | "!=" => cell != .null && bound != .null && cell != bound
  | "<" => valLt cell bound
  | "<=" => valLt cell bound || (cell != .null && cell == bound)
  | ">" => valLt bound cell
  | ">=" => valLt bound cell || (cell != .null && cell == bound)
  | "IS" => cell == bound
  | "IS NOT" => cell != bound
  | "LIKE" =>
      match cell, bound with
      | .str s, .str pat => likeMatches pat.toList s.toList
      | _, _ => false
  | _ => false

mutual

/-- Modelled external collaborator: the D1/SQLite engine evaluating an
emitted WHERE fragment against one row.  `1 = 0` is false for every row;
`field IN (…)` holds when the cell equals one of the bound values;
a parenthesized group holds when some member holds. -/
def Frag.holds (row : Row) : Frag → Bool
  | .cmp field op value =>
      cmpHolds op ((dictGet row field).getD .null) value
  | .inList field values =>
      values.any (fun v =>
        cmpHolds "=" ((dictGet row field).getD .null) v)
  | .falseF => false
  | .orFr subs => Frag.holdsList row subs

/-- Disjunction of a fragment list over one row. -/
def Frag.holdsList (row : Row) : List Frag → Bool
  | [] => false
  | f :: rest => Frag.holds row f || Frag.holdsList row rest

end

/-- Modelled external collaborator: the rows of `table` that the engine
returns for the WHERE clause `_execute_query` builds from `filters`
(clauses joined with `" AND "`; rows kept in table order). -/
def runSelect (table : List Row) (filters : List Filter) : List Row :=
  table.filter (fun r => (buildFragList filters).all (Frag.holds r))

/-- Class-level metadata of a mapped model, read off the declarations in
`backend/app/models/`: `__tablename__`, the mapped column names, and the
relationship keys with their `uselist` flag, in declaration order. -/
structure ModelClass where
  tableName : String
  columns : List String
  rels : List (String × Bool)
  deriving Repr, DecidableEq

/-- The `User` model (`models/user.py`). -/
def userModel : ModelClass :=
  { tableName := "users"
    columns := ["id", "member_id", "full_name", "gender", "age", "phone",
                "email", "password_hash", "country", "referral_source",
                "status", "role", "rejection_note", "halqa_id",
                "created_at", "updated_at"]
    rels := [("halqa", false), ("daily_cards", true),
             ("supervised_halqa", false)] }

/-- The `Halqa` model (`models/halqa.py`): it has a native `name` column
and no `full_name` attribute. -/
def halqaModel : ModelClass :=
  { tableName := "halqas"
    columns := ["id", "name", "supervisor_id", "created_at"]
    rels := [("supervisor", false), ("members", true)] }

/-- The `SiteSettings` model (`models/site_settings.py`). -/
def siteSettingsModel : ModelClass :=
  { tableName := "site_settings"
    columns := ["id", "enable_email_notifications"]
    rels := [] }

/-- Whether the model declares a mapped attribute literally named
`name` (true for `Halqa`, false for `User`). -/
def ModelClass.hasNativeName (mc : ModelClass) : Bool :=
  mc.columns.contains "name"

/-- `D1Query._row_to_model` (`d1_adapter.py` lines 352-407) on a Python
dict row (the shape every D1 result row is normalized to by
`_execute_query`): returns `None` for a falsy row; otherwise starts from
the relationship keys pre-set to `[]`/`None` in declaration order, then
assigns each row entry into `obj.__dict__`, where a key literally equal
to `name` is stored under `full_name` exactly when the ROW has no
`full_name` key — the dict branch never consults the model class. -/
def rowToModel (mc : ModelClass) (row : Row) :
    Option (List (String × Val)) :=
  if row.isEmpty then none
  else
    let base := mc.rels.map (fun kr =>
      (kr.1, if kr.2 then Val.listV 0 else Val.null))
    some (row.foldl
      (fun d kv =>
        if kv.1 == "name" && !(row.any (fun p => p.1 == "full_name")) then
          dictAssign d "full_name" kv.2
        else dictAssign d kv.1 kv.2)
      base)

/-- Accumulated `D1Query` builder state (`d1_adapter.py` lines 156-161):
model class, filter tuples, `ORDER BY` clause strings and the projection
(`'*'` unless overridden). -/
structure Query where
  model : ModelClass
  filters : List Filter
  orderByClauses : List String
  selectExpr : String

/-- `D1Session.query(model_class)` / `D1Query.__init__`. -/
def mkQuery (mc : ModelClass) : Query :=
  { model := mc, filters := [], orderByClauses := [], selectExpr := "*" }

/-- `D1Query.filter_by(**kwargs)`: appends one `('param', key, '=',
value)` tuple per keyword, serializing temporal values first. -/
def Query.filterBy (q : Query) (kwargs : List (String × Val)) : Query :=
  { q with filters := q.filters ++
      kwargs.map (fun kv => Filter.param kv.1 "=" (serialize kv.2)) }

/-- `D1Query.filter(*conditions)` after `_parse_sqlalchemy_condition`
has produced its filter tuples: appends them in order. -/
def Query.filterF (q : Query) (conds : List Filter) : Query :=
  { q with filters := q.filters ++ conds }

/-- `D1Query.order_by` with the direction already resolved: appends
`"field DESC"` / `"field ASC"` strings in call order. -/
def Query.orderByRaw (q : Query) (clauses : List String) : Query :=
  { q with orderByClauses := q.orderByClauses ++ clauses }

/-- The WHERE fragments of the accumulated filters. -/
def Query.frags (q : Query) : List Frag :=
  buildFragList q.filters

/-- The SQL text `_execute_query` assembles (lines 249-298): `SELECT
{select_expr} FROM {table}`, then ` WHERE ` + clauses joined with
`" AND "` when any clause was built, then ` ORDER BY `, then ` LIMIT n`
when the (truthy) limit is set. -/
def Query.sqlText (q : Query) (limit : Option Nat) : String :=
  let base := "SELECT " ++ q.selectExpr ++ " FROM " ++ q.model.tableName
  let withWhere :=
    if q.filters.isEmpty then base
    else
      match Frag.toSqlList q.frags with
      | [] => base
      | cs => base ++ " WHERE " ++ joinSep " AND " cs
  let withOrder :=
    if q.orderByClauses.isEmpty then withWhere
    else withWhere ++ " ORDER BY " ++ joinSep ", " q.orderByClauses
  match limit with
  | some n => if n ≠ 0 then withOrder ++ " LIMIT " ++ toString n else withOrder
  | none => withOrder

/-- The positional parameters bound to the statement, in the order
`_build_filter` appended them. -/
def Query.params (q : Query) : List Val :=
  Frag.bindsList q.frags

/-- The prepared-statement API of the D1 binding: a function from SQL
text and bound parameters to rows, or to the raised error. -/
def QEngine : Type :=
  String → List Val → Except String (List Row)

/-- `D1Query._execute_query`: builds the statement, binds the
parameters and runs it; the `except` block only logs and re-raises, so
every engine error propagates unchanged. -/
def executeQuery (engine : QEngine) (q : Query) (limit : Option Nat) :
    Except String (List Row) :=
  engine (q.sqlText limit) q.params

/-- `D1Query.first()`: executes with limit 1 and maps the head row. -/
def Query.firstRes (engine : QEngine) (q : Query) :
    Except String (Option (List (String × Val))) :=
  match executeQuery engine q (some 1) with
  | .error e => .error e
  | .ok [] => .ok none
  | .ok (row :: _) => .ok (rowToModel q.model row)

/-- `D1Query.all()`: executes without limit and maps every row. -/
def Query.allRes (engine : QEngine) (q : Query) :
    Except String (List (Option (List (String × Val)))) :=
  match executeQuery engine q none with
  | .error e => .error e
  | .ok rows => .ok (rows.map (rowToModel q.model))

/-- `D1Query.count()` (`d1_adapter.py` lines 221-234): runs the query
with the projection overridden to `COUNT(*) as cnt`; yields the `cnt`
value of the first row (`row.get('cnt', 0)`), `0` when no rows come
back, and propagates any error raised by `_execute_query` (the `finally`
block only restores the projection). -/
def Query.countRes (engine : QEngine) (q : Query) : Except String Val :=
  match executeQuery engine { q with selectExpr := "COUNT(*) as cnt" } none with
  | .error e => .error e
  | .ok [] => .ok (.int 0)
  | .ok (row :: _) => .ok ((dictGet row "cnt").getD (.int 0))

/-- A domain entity as the session sees it: its class-level
`__tablename__`, its `__table__` column names (the empty list models a
class without that metadata — Python's falsy empty set, which disables
the column filter in `_update_object`), and its `__dict__` contents. -/
structure Obj where
  table : String
  cols : List String
  attrs : List (String × Val)
  deriving Repr, DecidableEq

/-- `getattr(obj, 'id', None)`. -/
def Obj.getId (o : Obj) : Val :=
  (dictGet o.attrs "id").getD .null

/-- `hasattr(value, '__tablename__') or isinstance(value, list)` — the
relationship-value test used by `_insert_object`/`_update_object`. -/
def isRelVal : Val → Bool
  | .rel _ => true
  | .listV _ => true
  | _ => false

/-- A SQL statement as `D1Session.commit` issues it.  In `updateS`,
a set pair `(k, none)` is the literal `k = NULL` (the workaround for
unbindable `None`), and `(k, some v)` is `k = ?` with `v` bound. -/
inductive Stmt where
  | insertS (table : String) (cols : List String) (vals : List Val)
  | updateS (table : String) (sets : List (String × Option Val)) (objId : Val)
  | deleteS (table : String) (objId : Val)
  deriving Repr, DecidableEq

/-- `D1Session._insert_object` (lines 520-576), up to execution: one
column per `__dict__` entry whose key neither starts with `_` nor is
`id` and whose value is not relationship-shaped, temporal values
serialized (a `None` value IS bound here); `none` when no columns
remain (the code returns without executing). -/
def insertStmt (o : Obj) : Option Stmt :=
  let cv := o.attrs.filterMap (fun kv =>
    if kv.1.startsWith "_" || kv.1 == "id" then none
    else if isRelVal kv.2 then none
    else some (kv.1, serialize kv.2))
  if cv.isEmpty then none
  else some (.insertS o.table (cv.map (fun p => p.1)) (cv.map (fun p => p.2)))

/-- `D1Session._update_object` (lines 578-631), up to execution: `none`
(no statement, no error) when `getattr(obj, 'id', None)` is `None`;
otherwise the same column set as insert, additionally restricted to the
model's real columns when that metadata exists, with `None` values
emitted as literal `= NULL` instead of bound parameters; `none` again
when no set clause remains. -/
def updateStmt (o : Obj) : Option Stmt :=
  if o.getId == .null then none
  else
    let sets := o.attrs.filterMap (fun kv =>
      if kv.1.startsWith "_" || kv.1 == "id" then none
      else if isRelVal kv.2 then none
      else if !o.cols.isEmpty && !(o.cols.contains kv.1) then none
      else if kv.2 == .null then some (kv.1, (none : Option Val))
      else some (kv.1, some (serialize kv.2)))
    if sets.isEmpty then none
    else some (.updateS o.table sets o.getId)

/-- `D1Session._delete_object` (lines 633-642): `none` (silently
skipped) when the object has no `id`; otherwise a DELETE keyed by it. -/
def deleteStmt (o : Obj) : Option Stmt :=
  if o.getId == .null then none
  else some (.deleteS o.table o.getId)

/-- The D1 binding executing one write statement: `Except.ok` models a
successful `run()`, `Except.error` a raised error. -/
def WEngine : Type :=
  Stmt → Except String Unit

/-- `D1Session` mutable state (`__init__`, lines 416-421): the closed
flag and the three pending-operation lists. -/
structure Session where
  closed : Bool
  pendingAdds : List Obj
  pendingUpdates : List Obj
  pendingDeletes : List Obj
  deriving Repr, DecidableEq

/-- A freshly opened session. -/
def Session.new : Session :=
  { closed := false, pendingAdds := [], pendingUpdates := [],
    pendingDeletes := [] }

/-- `D1Session.add` (line 441): appends unconditionally — note there is
no closed-session check. -/
def Session.add (s : Session) (o : Obj) : Session :=
  { s with pendingAdds := s.pendingAdds ++ [o] }

/-- `D1Session.merge` (line 445): appends unless already pending (the
source compares by Python object identity; structural equality stands in
for it here) — no closed-session check. -/
def Session.merge (s : Session) (o : Obj) : Session :=
  if o ∈ s.pendingUpdates then s
  else { s with pendingUpdates := s.pendingUpdates ++ [o] }

/-- `D1Session.delete` (line 451): appends unconditionally — no
closed-session check. -/
def Session.deleteObj (s : Session) (o : Obj) : Session :=
  { s with pendingDeletes := s.pendingDeletes ++ [o] }

/-- `D1Session.rollback` (line 459): clears the three pending lists. -/
def Session.rollback (s : Session) : Session :=
  { s with pendingAdds := [], pendingUpdates := [], pendingDeletes := [] }

/-- `D1Session.close` (line 665): only sets the flag. -/
def Session.closeS (s : Session) : Session :=
  { s with closed := true }

/-- One category of `D1Session.commit`'s flush loop: translate each
pending object in list order, skip the ones that yield no statement,
execute the rest sequentially, stopping at (and propagating) the first
engine error.  Returns the executed statements in order. -/
def execObjs (engine : WEngine) (mk : Obj → Option Stmt) :
    List Obj → Except String (List Stmt)
  | [] => .ok []
  | o :: rest =>
      match mk o with
      | none => execObjs engine mk rest
      | some st =>
          match engine st with
          | .error e => .error e
          | .ok _ =>
              match execObjs engine mk rest with
              | .error e => .error e
              | .ok tr => .ok (st :: tr)

/-- `D1Session.commit` (lines 465-492): raises on a closed session;
otherwise flushes pending adds, then updates, then deletes, each in
list order; on full success clears the three lists, on any error
re-raises (the `except` block only logs) leaving the lists untouched.
Returns the result (with the executed statement trace) and the session
state afterwards.  (The source also writes a generated `last_row_id`
back onto each inserted object; that writeback is not modelled — it
changes no list membership and no statement.) -/
def Session.commit (engine : WEngine) (s : Session) :
    Except String (List Stmt) × Session :=
  if s.closed then (.error "Session is closed", s)
  else
    match execObjs engine insertStmt s.pendingAdds with
    | .error e => (.error e, s)
    | .ok a =>
        match execObjs engine updateStmt s.pendingUpdates with
        | .error e => (.error e, s)
        | .ok b =>
            match execObjs engine deleteStmt s.pendingDeletes with
            | .error e => (.error e, s)
            | .ok c =>
                (.ok (a ++ b ++ c),
                 { s with pendingAdds := [], pendingUpdates := [],
                          pendingDeletes := [] })

/-- `D1Session.flush` (line 455): same as commit. -/
def Session.flush (engine : WEngine) (s : Session) :
    Except String (List Stmt) × Session :=
  Session.commit engine s

/-- Python `int(value)` on the values `get` receives: integers pass
through, strings are trimmed and parsed as an optionally-signed decimal
numeral (digit-group underscores are not modelled), everything else —
including the empty string — raises `ValueError`/`TypeError`. -/
def digitsVal : List Char → Option Nat
  | [] => none
  | cs =>
      cs.foldl
        (fun acc c =>
          match acc with
          | none => none
          | some n => if c.isDigit then some (n * 10 + (c.toNat - 48)) else none)
        (some 0)

/-- See `digitsVal`: the full `int()` conversion. -/
def pyInt : Val → Option Int
  | .int n => some n
  | .str s =>
      match pyStrip s with
      | '-' :: rest => (digitsVal rest).map (fun n => -(n : Int))
      | '+' :: rest => (digitsVal rest).map (fun n => (n : Int))
      | cs => (digitsVal cs).map (fun n => (n : Int))
  | _ => none

/-- The binding's point-lookup path `db.prepare(q).bind(x).first()`,
keyed by table name and the bound key value. -/
def PointDB : Type :=
  String → Val → Option Row

/-- `D1Session.get` (lines 427-439): `None` id → `None` without I/O;
otherwise the id goes through Python `int()` (which RAISES on a
non-numeric or empty string), then a point lookup `SELECT * FROM t
WHERE id = ?`; a falsy result maps to `None`, a row through
`_row_to_model`.  The pending lists are never touched (the returned
session state is the argument unchanged), and there is no
closed-session check. -/
def Session.getById (db : PointDB) (s : Session) (mc : ModelClass)
    (objId : Val) :
    Except String (Option (List (String × Val))) × Session :=
  if objId == .null then (.ok none, s)
  else
    match pyInt objId with
    | none => (.error "ValueError: invalid literal for int() with base 10", s)
    | some n =>
        match db mc.tableName (.int n) with
        | none => (.ok none, s)
        | some row =>
            if row.isEmpty then (.ok none, s)
            else (.ok (rowToModel mc row), s)

/-- `D1Session.refresh` (lines 494-518): raises on a closed session;
no-op when the object has no id; otherwise re-fetches by primary key
and overwrites the object's fields from the row (a missing or falsy
result leaves the object unchanged). -/
def Session.refreshObj (db : PointDB) (s : Session) (o : Obj) :
    Except String Obj :=
  if s.closed then .error "Session is closed"
  else
    match o.getId with
    | .null => .ok o
    | oid =>
        match db o.table oid with
        | none => .ok o
        | some row =>
            if row.isEmpty then .ok o
            else
              let newAttrs := row.foldl (fun d kv => dictAssign d kv.1 kv.2) o.attrs
              .ok { o with attrs := newAttrs }

/-- `D1Session.execute` (lines 644-654): raises on a closed session,
else runs the raw statement through the binding. -/
def Session.executeRaw (raw : QEngine) (s : Session) (q : String)
    (ps : List Val) : Except String (List Row) :=
  if s.closed then .error "Session is closed" else raw q ps

/-- `D1Session.execute_many` (lines 656-663): raises on a closed
session, else batches the statements through the binding. -/
def Session.executeManyRaw (batch : List String → Except String (List (List Row)))
    (s : Session) (qs : List String) : Except String (List (List Row)) :=
  if s.closed then .error "Session is closed" else batch qs

/-- Query execution issued through a session
(`session.query(M)....all()`): `D1Query._execute_query` reads
`self.session.db` but never consults `_closed`, so a closed session
executes queries exactly like an open one. -/
def Session.queryAll (engine : QEngine) (_s : Session) (q : Query) :
    Except String (List (Option (List (String × Val)))) :=
  Query.allRes engine q

end D1

namespace Init

/-- An Account row as the seed sequencer touches it
(`initialization.py` lines 144-181): internal id, lower-cased email,
role, status, display name and the optional external membership
number. -/
structure UserRec where
  id : Int
  email : String
  role : String
  status : String
  fullName : String
  memberId : Option Int
  deriving Repr, DecidableEq

/-- Stable insertion into a list sorted by ascending `id`. -/
def insertById (u : UserRec) : List UserRec → List UserRec
  | [] => [u]
  | v :: rest =>
      if u.id ≤ v.id then u :: v :: rest else v :: insertById u rest

/-- `ORDER BY users.id` — the result order of
`db.query(User).filter(User.member_id.is_(None)).order_by(User.id)`. -/
def sortById (l : List UserRec) : List UserRec :=
  l.foldr insertById []

/-- `db.query(func.max(User.member_id)).scalar()`: SQL `MAX` over the
column, ignoring NULLs, `NULL` when every value is NULL. -/
def maxMemberId (users : List UserRec) : Option Int :=
  users.foldl
    (fun acc u =>
      match acc, u.memberId with
      | none, m => m
      | some a, none => some a
      | some a, some b => some (max a b))
    none

/-- `next_id = (max_mid + 1) if max_mid else 1000` (line 157): note the
Python TRUTHINESS test — both `None` and `0` fall back to 1000. -/
def backfillStart (users : List UserRec) : Int :=
  match maxMemberId users with
  | some m => if m ≠ 0 then m + 1 else 1000
  | none => 1000

/-- The assignment loop (lines 158-160): consecutive numbers handed out
over the ordered worklist. -/
def backfillLoop (next : Int) : List UserRec → List (Int × Int)
  | [] => []
  | u :: rest => (u.id, next) :: backfillLoop (next + 1) rest

/-- The `(user id, assigned member number)` pairs produced by one
backfill pass (lines 152-162): users missing a member number, in
ascending id order, numbered consecutively from `backfillStart`. -/
def backfillAssignments (users : List UserRec) : List (Int × Int) :=
  let without := sortById (users.filter (fun u => u.memberId == none))
  if without.isEmpty then []
  else backfillLoop (backfillStart users) without

/-- The committed effect of the backfill pass on the user table. -/
def backfillUsers (users : List UserRec) : List UserRec :=
  users.map (fun u =>
    match (backfillAssignments users).find? (fun p => p.1 == u.id) with
    | some p => { u with memberId := some p.2 }
    | none => u)

/-- The conventional-path database state the seed sequencer reads and
writes: the `site_settings` rows (their notification flag) and the
`users` rows. -/
structure ConvDB where
  settingsRows : List Bool
  users : List UserRec
  deriving Repr, DecidableEq

/-- Modelled external collaborator: the engine's autoincrement primary
key for a fresh `users` row. -/
def nextUserId (users : List UserRec) : Int :=
  (users.foldl (fun a u => max a u.id) 0) + 1

/-- The row `initialize_database` inserts for the missing primary
administrator (lines 168-179). -/
def adminRow (email : String) (newId : Int) : UserRec :=
  { id := newId, email := email, role := "super_admin", status := "active",
    fullName := "Super Admin", memberId := none }

/-- Steps 3-5 of `initialize_database` (`initialization.py` lines
144-181), the seed sequencer: insert the default `SiteSettings` row when
none exists; backfill member numbers; insert the primary-administrator
account (looked up by the lower-cased configured email) when absent. -/
def seedSequencer (adminEmailCfg : String) (db : ConvDB) : ConvDB :=
  let db1 :=
    if db.settingsRows.isEmpty then
      { db with settingsRows := db.settingsRows ++ [true] }
    else db
  let db2 := { db1 with users := backfillUsers db1.users }
  let adminEmail := D1.pyLower adminEmailCfg
  if (db2.users.find? (fun u => u.email == adminEmail)).isSome then db2
  else
    { db2 with users :=
        db2.users ++ [adminRow adminEmail (nextUserId db2.users)] }

/-- A `halqas` row as the admin handlers touch it. -/
structure HalqaRec where
  id : Int
  name : String
  supervisorId : Option Int
  deriving Repr, DecidableEq

/-- Python truthiness of `data.supervisor_id` (an `Optional[int]`). -/
def truthyId : Option Int → Bool
  | some n => n ≠ 0
  | none => false

/-- The committed effect of `old_halqa.supervisor_id = None;
db.merge(old_halqa)`: the UPDATE keyed by the old halqa's id. -/
def clearSup (hs : List HalqaRec) (targetId : Int) : List HalqaRec :=
  hs.map (fun h =>
    if h.id == targetId then { h with supervisorId := none } else h)

/-- Modelled external collaborator: autoincrement id for a fresh
`halqas` row. -/
def nextHalqaId (hs : List HalqaRec) : Int :=
  (hs.foldl (fun a h => max a h.id) 0) + 1

/-- `create_halqa` (`routes/admin.py` lines 412-448), committed effect
on the halqa table: reject an empty (trimmed) or duplicate name; when
the requested supervisor id is truthy, clear the first halqa that
account currently supervises; insert the new halqa carrying the
requested supervisor. -/
def createHalqa (hs : List HalqaRec) (rawName : String)
    (supId : Option Int) : Except String (List HalqaRec) :=
  let name := D1.pyTrim rawName
  if name == "" then .error "name required"
  else if (hs.find? (fun h => h.name == name)).isSome then
    .error "duplicate name"
  else
    let cleared :=
      if truthyId supId then
        match hs.find? (fun h => h.supervisorId == supId) with
        | some old => clearSup hs old.id
        | none => hs
      else hs
    .ok (cleared ++ [{ id := nextHalqaId hs, name := name,
                       supervisorId := supId }])

/-- The supervisor-change step of `update_halqa` (lines 480-490): when
the requested id `s` is truthy and differs from the target's current
supervisor, clear the first OTHER halqa supervised by `s` (`.first()`
of the filtered query).  The second component is the value written to
the target's `supervisor_id` — always `s` itself. -/
def updStep (hs : List HalqaRec) (halqaId : Int) (s : Int)
    (halqa : HalqaRec) : List HalqaRec × Option Int :=
  if s ≠ 0 && some s ≠ halqa.supervisorId then
    match hs.find? (fun h =>
        h.supervisorId == some s && h.id != halqaId) with
    | some old => (clearSup hs old.id, some s)
    | none => (hs, some s)
  else (hs, some s)

/-- The committed UPDATE on the target halqa row (name and
supervisor), keyed by its id. -/
def setHalqaRow (halqaId : Int) (newName : String) (sup : Option Int)
    (hs : List HalqaRec) : List HalqaRec :=
  hs.map (fun h =>
    if h.id == halqaId then { h with name := newName, supervisorId := sup }
    else h)

/-- `update_halqa` (`routes/admin.py` lines 451-510), committed effect
on the halqa table: 404 when the halqa does not exist; an explicit name
must be non-empty after trimming; when a truthy supervisor id different
from the current one is requested, clear the first OTHER halqa that
account supervises; finally write the (possibly updated) name and
supervisor onto the target row. -/
def updateHalqa (hs : List HalqaRec) (halqaId : Int)
    (nameUpd : Option String) (supUpd : Option Int) :
    Except String (List HalqaRec) :=
  match hs.find? (fun h => h.id == halqaId) with
  | none => .error "halqa not found"
  | some halqa =>
      let nameRes : Except String String :=
        match nameUpd with
        | none => .ok halqa.name
        | some s =>
            if D1.pyTrim s == "" then .error "name required"
            else .ok (D1.pyTrim s)
      match nameRes with
      | .error e => .error e
      | .ok newName =>
          let step : List HalqaRec × Option Int :=
            match supUpd with
            | none => (hs, halqa.supervisorId)
            | some s => updStep hs halqaId s halqa
          .ok (setHalqaRow halqaId newName step.2 step.1)

/-- Number of halqas supervised by account `a`. -/
def supCount (hs : List HalqaRec) (a : Int) : Nat :=
  hs.countP (fun h => h.supervisorId == some a)

/-- The §3 invariant: an account (a genuine one, id ≠ 0) supervises at
most one halqa. -/
def supInvariant (hs : List HalqaRec) : Prop :=
  ∀ a : Int, a ≠ 0 → supCount hs a ≤ 1

/-- The list `[next, next + 1, …]` of `n` consecutive integers — the
shape of the numbers one backfill pass hands out. -/
def consecFrom (next : Int) : Nat → List Int
  | 0 => []
  | n + 1 => next :: consecFrom (next + 1) n

/-- Fixture: the spec's backfill example — existing membership numbers
{1000, 1002} plus two accounts (ids 3, 4) missing one. -/
def exUsers : List UserRec :=
  [{ id := 1, email := "a@x.com", role := "participant", status := "active",
     fullName := "A", memberId := some 1000 },
   { id := 2, email := "b@x.com", role := "participant", status := "active",
     fullName := "B", memberId := some 1002 },
   { id := 3, email := "c@x.com", role := "participant", status := "active",
     fullName := "C", memberId := none },
   { id := 4, email := "d@x.com", role := "participant", status := "active",
     fullName := "D", memberId := none }]

/-- Fixture: an account with membership number 0 plus one account
missing a number. -/
def zeroMaxUsers : List UserRec :=
  [{ id := 1, email := "a@x.com", role := "participant", status := "active",
     fullName := "A", memberId := some 0 },
   { id := 2, email := "b@x.com", role := "participant", status := "active",
     fullName := "B", memberId := none }]

/-- Fixture: a fresh conventional-path database. -/
def emptyConvDB : ConvDB := { settingsRows := [], users := [] }

/-- Fixture: one halqa supervised by account 5. -/
def exHalqas : List HalqaRec :=
  [{ id := 1, name := "Halqa A", supervisorId := some 5 }]

end Init

namespace D1

/-- Fixture: a write engine whose every statement succeeds. -/
def okEngine : WEngine := fun _ => .ok ()

/-- Fixture: a write engine whose every statement raises. -/
def failWEngine : WEngine := fun _ => .error "D1_ERROR"

/-- Fixture: a query engine over an empty table. -/
def emptyQEngine : QEngine := fun _ _ => .ok []

/-- Fixture: a query engine that raises a connection error. -/
def connFailEngine : QEngine := fun _ _ => .error "D1_ERROR: connection lost"

/-- Fixture: a query engine whose statement fails inside the database
itself — a plain query error (missing table), not a network or
connection failure. -/
def sqlErrEngine : QEngine := fun _ _ => .error "D1_ERROR: no such table: users"

/-- Fixture: a point-lookup binding with no rows. -/
def emptyPointDB : PointDB := fun _ _ => none

/-- Fixture: a pending object without a primary key. -/
def objNoId : Obj :=
  { table := "users", cols := userModel.columns,
    attrs := [("full_name", .str "Test"), ("email", .str "t@x.com")] }

/-- Fixture: a pending object carrying a primary key. -/
def objWithId : Obj :=
  { table := "users", cols := userModel.columns,
    attrs := [("id", .int 3), ("status", .str "active")] }

end D1

namespace D1

/-- Helper: a filter whose `_build_filter` yields a fragment contributes
that fragment to the built clause list. -/
theorem mem_buildFragList {f : Filter} {fr : Frag} {l : List Filter}
    (hmem : f ∈ l) (hb : buildFrag f = some fr) : fr ∈ buildFragList l := by
  induction l with
  | nil => cases hmem
  | cons g rest ih =>
      rcases List.mem_cons.mp hmem with rfl | hrest
      · rw [buildFragList, hb]
        exact List.mem_cons_self _ _
      · rw [buildFragList]
        cases hg : buildFrag g with
        | none => exact ih hrest
        | some fr' => exact List.mem_cons_of_mem _ (ih hrest)

/-- C2: set-membership on an empty value set is built as the
always-false fragment `1 = 0` with no bound parameters — never an empty
`IN ()` and never a row-matching fragment — so any query whose filter
list contains it returns zero rows. -/
theorem C2_empty_in_always_false (field : String) (filters : List Filter)
    (table : List Row) (hmem : Filter.inSet field [] ∈ filters) :
    buildFrag (Filter.inSet field []) = some Frag.falseF ∧
    Frag.toSql Frag.falseF = "1 = 0" ∧
    Frag.binds Frag.falseF = [] ∧
    (∀ r : Row, Frag.holds r Frag.falseF = false) ∧
    runSelect table filters = [] := by
  refine ⟨rfl, rfl, rfl, fun r => rfl, ?_⟩
  have hfr : Frag.falseF ∈ buildFragList filters :=
    mem_buildFragList hmem rfl
  rw [runSelect, List.filter_eq_nil_iff]
  intro r _ hall
  have := List.all_eq_true.mp hall Frag.falseF hfr
  simp [Frag.holds] at this

/-- C2 witness: a concrete query carrying an empty-set membership
filter over a concrete nonempty table. -/
theorem C2_empty_in_witness :
    Filter.inSet "status" [] ∈
      [Filter.param "role" "=" (Val.str "admin"), Filter.inSet "status" []] ∧
    runSelect [[("id", Val.int 1), ("role", Val.str "admin")]]
      [Filter.param "role" "=" (Val.str "admin"), Filter.inSet "status" []] = [] :=
  ⟨by simp, (C2_empty_in_always_false "status" _
      [[("id", Val.int 1), ("role", Val.str "admin")]]
      (by simp)).2.2.2.2⟩

/-- C1 (code evaluation at the failing input): for a `halqas` result row
— whose model is the one mapped class with a native `name` column and no
`full_name` attribute — the dict branch of `_row_to_model` checks the
ROW for a `full_name` key instead of checking the model, so it stores
the halqa's name under `full_name` and leaves the model's native `name`
field unset, contrary to the documented legacy rule. -/
theorem C1_halqa_name_mapped_to_full_name :
    halqaModel.hasNativeName = true ∧
    rowToModel halqaModel
      [("id", Val.int 1), ("name", Val.str "Halqa A"), ("supervisor_id", Val.null)] =
      some [("supervisor", Val.null), ("members", Val.listV 0), ("id", Val.int 1),
            ("full_name", Val.str "Halqa A"), ("supervisor_id", Val.null)] ∧
    dictGet [("supervisor", Val.null), ("members", Val.listV 0), ("id", Val.int 1),
             ("full_name", Val.str "Halqa A"), ("supervisor_id", Val.null)] "name" = none :=
  ⟨rfl, rfl, rfl⟩

end D1

namespace D1

/-- C4 counterexample: a plain QUERY error — the database itself
rejecting the statement (missing table), not a network or connection
failure — is exactly the case the claim says `count()` converts to 0;
instead `count()` propagates it, because neither `D1Query.count` nor
`_execute_query` has any error-to-zero path (the `except` block only
logs and re-raises). -/
theorem C4_count_error_counterexample :
    Query.countRes sqlErrEngine (mkQuery userModel) =
      Except.error "D1_ERROR: no such table: users" ∧
    Query.countRes sqlErrEngine (mkQuery userModel) ≠ Except.ok (Val.int 0) :=
  ⟨rfl, fun h => Except.noConfusion h⟩

/-- C4 (amended): `count()` runs the query with the projection
overridden to `COUNT(*) as cnt`; it returns 0 when the query returns no
rows and the first row's `cnt` (defaulting to 0) otherwise, while EVERY
error from the underlying execution — network/connection errors
included — propagates unchanged. -/
theorem C4_count_behavior (engine : QEngine) (q : Query) :
    (executeQuery engine { q with selectExpr := "COUNT(*) as cnt" } none =
        Except.ok [] → Query.countRes engine q = Except.ok (Val.int 0)) ∧
    (∀ e, executeQuery engine { q with selectExpr := "COUNT(*) as cnt" } none =
        Except.error e → Query.countRes engine q = Except.error e) ∧
    (∀ row rest,
        executeQuery engine { q with selectExpr := "COUNT(*) as cnt" } none =
          Except.ok (row :: rest) →
        Query.countRes engine q =
          Except.ok ((dictGet row "cnt").getD (Val.int 0))) ∧
    (∀ mc : ModelClass,
        Query.sqlText { mkQuery mc with selectExpr := "COUNT(*) as cnt" } none =
          "SELECT COUNT(*) as cnt FROM " ++ mc.tableName) := by
  refine ⟨?_, ?_, ?_, fun mc => rfl⟩
  · intro h
    simp [Query.countRes, h]
  · intro e h
    simp [Query.countRes, h]
  · intro row rest h
    simp [Query.countRes, h]

/-- C4 witness: over an empty table the overridden query returns no
rows and `count()` yields 0. -/
theorem C4_count_behavior_witness :
    executeQuery emptyQEngine
      { mkQuery userModel with selectExpr := "COUNT(*) as cnt" } none =
      Except.ok [] ∧
    Query.countRes emptyQEngine (mkQuery userModel) = Except.ok (Val.int 0) :=
  ⟨rfl, (C4_count_behavior emptyQEngine (mkQuery userModel)).1 rfl⟩

/-- C6 counterexample: `get` pushes the id through Python `int()`, so an
EMPTY-string id raises `ValueError` instead of returning the empty
result the claim promises for an "empty/missing" id. -/
theorem C6_empty_id_raises_counterexample :
    (Session.getById emptyPointDB Session.new userModel (Val.str "")).1 =
      Except.error "ValueError: invalid literal for int() with base 10" ∧
    (Session.getById emptyPointDB Session.new userModel (Val.str "")).1 ≠
      Except.ok none :=
  ⟨rfl, fun h => Except.noConfusion h⟩

/-- C6 (amended): `get` returns empty (not an error) when the id is
MISSING (`None`) or when no row matches a convertible id, and it never
touches the session's pending lists (the session state comes back
unchanged for every input); but an id that fails `int()` conversion —
the empty string included — raises instead of returning empty. -/
theorem C6_get_behavior (db : PointDB) (s : Session) (mc : ModelClass)
    (objId : Val) (n : Int) :
    Session.getById db s mc Val.null = (Except.ok none, s) ∧
    (pyInt objId = some n → db mc.tableName (Val.int n) = none →
        Session.getById db s mc objId = (Except.ok none, s)) ∧
    (Session.getById db s mc objId).2 = s := by
  refine ⟨rfl, ?_, ?_⟩
  · intro hpy hdb
    have hne : (objId == Val.null) = false := by
      cases objId <;> simp_all [pyInt]
    simp [Session.getById, hne, hpy, hdb]
  · unfold Session.getById
    split
    · rfl
    · cases pyInt objId with
      | none => rfl
      | some m =>
          simp only
          cases db mc.tableName (Val.int m) with
          | none => rfl
          | some row =>
              simp only
              split <;> rfl

/-- C6 witness: a missing row under a convertible concrete id yields
the empty result with the session untouched. -/
theorem C6_get_behavior_witness :
    pyInt (Val.int 5) = some 5 ∧
    emptyPointDB "users" (Val.int 5) = none ∧
    Session.getById emptyPointDB Session.new userModel (Val.int 5) =
      (Except.ok none, Session.new) :=
  ⟨rfl, rfl,
   (C6_get_behavior emptyPointDB Session.new userModel (Val.int 5) 5).2.1 rfl rfl⟩

end D1

namespace D1

/-- Helper: a fully successful category flush executes exactly the
statements the pending objects translate to, in list order. -/
theorem execObjs_ok_trace {engine : WEngine} {mk : Obj → Option Stmt} :
    ∀ {l : List Obj} {tr : List Stmt},
      execObjs engine mk l = Except.ok tr → tr = l.filterMap mk := by
  intro l
  induction l with
  | nil =>
      intro tr h
      rw [execObjs] at h
      cases h
      rfl
  | cons o rest ih =>
      intro tr h
      rw [execObjs] at h
      cases hmk : mk o with
      | none =>
          rw [hmk] at h
          rw [List.filterMap_cons, hmk]
          exact ih h
      | some st =>
          simp only [hmk] at h
          cases heng : engine st with
          | error e => simp only [heng] at h; cases h
          | ok u =>
              simp only [heng] at h
              cases hrest : execObjs engine mk rest with
              | error e => simp only [hrest] at h; cases h
              | ok tr' =>
                  simp only [hrest, Except.ok.injEq] at h
                  rw [List.filterMap_cons, hmk, ← h, ih hrest]

/-- Helper: a category flush whose every object translates to no
statement succeeds with an empty trace, under any engine. -/
theorem execObjs_all_none {engine : WEngine} {mk : Obj → Option Stmt} :
    ∀ {l : List Obj}, (∀ o ∈ l, mk o = none) →
      execObjs engine mk l = Except.ok [] := by
  intro l
  induction l with
  | nil => intro _; rfl
  | cons o rest ih =>
      intro h
      rw [execObjs, h o (List.mem_cons_self o rest)]
      exact ih (fun o' ho' => h o' (List.mem_cons_of_mem _ ho'))

/-- C3: on an open session, the pending lists are appended to in caller
order, and commit flushes all pending inserts, then all updates, then
all deletes, each category in enqueue order; full success clears the
three lists, while any statement failure propagates the error and
leaves all three lists exactly as they were. -/
theorem C3_commit_order_and_clearing (engine : WEngine) (s : Session)
    (hopen : s.closed = false) :
    (∀ o : Obj,
        (s.add o).pendingAdds = s.pendingAdds ++ [o] ∧
        (s.deleteObj o).pendingDeletes = s.pendingDeletes ++ [o] ∧
        (o ∉ s.pendingUpdates →
          (s.merge o).pendingUpdates = s.pendingUpdates ++ [o])) ∧
    (∀ tr s', Session.commit engine s = (Except.ok tr, s') →
        tr = s.pendingAdds.filterMap insertStmt ++
             s.pendingUpdates.filterMap updateStmt ++
             s.pendingDeletes.filterMap deleteStmt ∧
        s'.pendingAdds = [] ∧ s'.pendingUpdates = [] ∧
        s'.pendingDeletes = []) ∧
    (∀ e s', Session.commit engine s = (Except.error e, s') → s' = s) := by
  refine ⟨?_, ?_, ?_⟩
  · intro o
    refine ⟨rfl, rfl, fun hno => ?_⟩
    rw [Session.merge, if_neg hno]
  · intro tr s' h
    rw [Session.commit, hopen] at h
    simp only [Bool.false_eq_true, if_false] at h
    cases ha : execObjs engine insertStmt s.pendingAdds with
    | error e => rw [ha] at h; cases h
    | ok a =>
        rw [ha] at h
        cases hb : execObjs engine updateStmt s.pendingUpdates with
        | error e => rw [hb] at h; cases h
        | ok b =>
            rw [hb] at h
            cases hc : execObjs engine deleteStmt s.pendingDeletes with
            | error e => rw [hc] at h; cases h
            | ok c =>
                rw [hc] at h
                cases h
                refine ⟨?_, rfl, rfl, rfl⟩
                rw [execObjs_ok_trace ha, execObjs_ok_trace hb,
                    execObjs_ok_trace hc]
  · intro e s' h
    rw [Session.commit, hopen] at h
    simp only [Bool.false_eq_true, if_false] at h
    cases ha : execObjs engine insertStmt s.pendingAdds with
    | error e' => rw [ha] at h; cases h; rfl
    | ok a =>
        rw [ha] at h
        cases hb : execObjs engine updateStmt s.pendingUpdates with
        | error e' => rw [hb] at h; cases h; rfl
        | ok b =>
            rw [hb] at h
            cases hc : execObjs engine deleteStmt s.pendingDeletes with
            | error e' => rw [hc] at h; cases h; rfl
            | ok c => rw [hc] at h; cases h

/-- C3 witness: a concrete open session with one pending insert, one
pending update and one pending delete commits under an all-succeeding
engine. -/
theorem C3_commit_witness :
    (((Session.new.add objNoId).merge objWithId).deleteObj objWithId).closed
      = false ∧
    (∀ tr s',
      Session.commit okEngine
          (((Session.new.add objNoId).merge objWithId).deleteObj objWithId) =
        (Except.ok tr, s') →
      tr = [objNoId].filterMap insertStmt ++ [objWithId].filterMap updateStmt
             ++ [objWithId].filterMap deleteStmt ∧
      s'.pendingAdds = [] ∧ s'.pendingUpdates = [] ∧
      s'.pendingDeletes = []) :=
  ⟨rfl,
   (C3_commit_order_and_clearing okEngine
     (((Session.new.add objNoId).merge objWithId).deleteObj objWithId)
     rfl).2.1⟩

/-- C10: a merged or deleted entity whose `id` is missing/None at commit
time translates to no statement at all, and a commit whose pending
updates and deletes all lack ids (with nothing to insert) succeeds with
an empty statement trace — under EVERY engine, even an always-failing
one — and still clears the pending lists. -/
theorem C10_missing_id_silently_skipped (engine : WEngine) (s : Session)
    (o : Obj) (hopen : s.closed = false) (hadds : s.pendingAdds = [])
    (hupd : ∀ u ∈ s.pendingUpdates, u.getId = Val.null)
    (hdel : ∀ u ∈ s.pendingDeletes, u.getId = Val.null)
    (hid : o.getId = Val.null) :
    updateStmt o = none ∧ deleteStmt o = none ∧
    Session.commit engine s =
      (Except.ok [],
       { s with pendingAdds := [], pendingUpdates := [],
                pendingDeletes := [] }) := by
  refine ⟨by rw [updateStmt, hid]; rfl, by rw [deleteStmt, hid]; rfl, ?_⟩
  rw [Session.commit, hopen]
  simp only [Bool.false_eq_true, if_false]
  rw [hadds]
  rw [show execObjs engine insertStmt [] = Except.ok [] from rfl]
  rw [execObjs_all_none (fun u hu => by rw [updateStmt, hupd u hu]; rfl)]
  rw [execObjs_all_none (fun u hu => by rw [deleteStmt, hdel u hu]; rfl)]
  rfl

/-- C10 witness: a session holding only an id-less pending update and an
id-less pending delete commits successfully, with no statement issued,
under the always-failing engine. -/
theorem C10_missing_id_witness :
    (Session.new.merge objNoId |>.deleteObj objNoId).closed = false ∧
    objNoId.getId = Val.null ∧
    updateStmt objNoId = none ∧ deleteStmt objNoId = none ∧
    Session.commit failWEngine (Session.new.merge objNoId |>.deleteObj objNoId) =
      (Except.ok [],
       { (Session.new.merge objNoId |>.deleteObj objNoId) with
          pendingAdds := [], pendingUpdates := [], pendingDeletes := [] }) := by
  have hu : ∀ u ∈ (Session.new.merge objNoId |>.deleteObj objNoId).pendingUpdates,
      u.getId = Val.null := by
    intro u hu
    rw [List.mem_singleton.mp hu]
    rfl
  have hd : ∀ u ∈ (Session.new.merge objNoId |>.deleteObj objNoId).pendingDeletes,
      u.getId = Val.null := by
    intro u hu
    rw [List.mem_singleton.mp hu]
    rfl
  have h := C10_missing_id_silently_skipped failWEngine
    (Session.new.merge objNoId |>.deleteObj objNoId) objNoId rfl rfl hu hd rfl
  exact ⟨rfl, rfl, h.1, h.2.1, h.2.2⟩

end D1

namespace D1

/-- C5 counterexample: on a CLOSED session, `add` enqueues its object
(performing work instead of failing), `get` performs its point lookup
and returns normally, and query execution runs and returns normally —
refuting the claim that every operation on a closed session fails with
a `SessionClosedError`-equivalent. -/
theorem C5_closed_session_counterexample :
    ((Session.new.closeS).add objWithId).pendingAdds = [objWithId] ∧
    (Session.getById emptyPointDB Session.new.closeS userModel
        (Val.int 7)).1 = Except.ok none ∧
    Session.queryAll emptyQEngine Session.new.closeS (mkQuery userModel) =
      Except.ok [] :=
  ⟨rfl, rfl, rfl⟩

/-- C5 (amended): after `close()`, only `commit`, `flush`, `refresh`,
`execute` and `execute_many` fail with the closed-session error;
`add`, `merge`, `delete` still enqueue, and `get` and query execution
still run exactly as on an open session — the source guards only the
five former methods with the `_closed` check. -/
theorem C5_closed_session_behavior (s : Session) (hclosed : s.closed = true)
    (engine : WEngine) (qe : QEngine)
    (batch : List String → Except String (List (List Row)))
    (db : PointDB) (o : Obj) (q : Query) (qs : List String)
    (sql : String) (ps : List Val) (mc : ModelClass) (objId : Val) :
    Session.commit engine s = (Except.error "Session is closed", s) ∧
    Session.flush engine s = (Except.error "Session is closed", s) ∧
    Session.refreshObj db s o = Except.error "Session is closed" ∧
    Session.executeRaw qe s sql ps = Except.error "Session is closed" ∧
    Session.executeManyRaw batch s qs = Except.error "Session is closed" ∧
    (s.add o).pendingAdds = s.pendingAdds ++ [o] ∧
    (s.deleteObj o).pendingDeletes = s.pendingDeletes ++ [o] ∧
    (s.merge o).pendingUpdates =
      (if o ∈ s.pendingUpdates then s.pendingUpdates
       else s.pendingUpdates ++ [o]) ∧
    (Session.getById db s mc objId).1 =
      (Session.getById db { s with closed := false } mc objId).1 ∧
    Session.queryAll qe s q = Query.allRes qe q := by
  refine ⟨?_, ?_, ?_, ?_, ?_, rfl, rfl, ?_, ?_, rfl⟩
  · rw [Session.commit, hclosed]; rfl
  · rw [Session.flush, Session.commit, hclosed]; rfl
  · rw [Session.refreshObj, hclosed]; rfl
  · rw [Session.executeRaw, hclosed]; rfl
  · rw [Session.executeManyRaw, hclosed]; rfl
  · rw [Session.merge]; split <;> rfl
  · unfold Session.getById
    split
    · rfl
    · cases pyInt objId with
      | none => rfl
      | some m =>
          simp only
          cases db mc.tableName (Val.int m) with
          | none => rfl
          | some row =>
              simp only
              split <;> rfl

/-- C5 witness: the guarded operations on a concrete closed session. -/
theorem C5_closed_session_witness :
    (Session.new.closeS).closed = true ∧
    Session.commit okEngine Session.new.closeS =
      (Except.error "Session is closed", Session.new.closeS) ∧
    Session.refreshObj emptyPointDB Session.new.closeS objWithId =
      Except.error "Session is closed" :=
  have h := C5_closed_session_behavior Session.new.closeS rfl okEngine
    emptyQEngine (fun _ => Except.ok []) emptyPointDB objWithId
    (mkQuery userModel) [] "SELECT 1" [] userModel Val.null
  ⟨rfl, h.1, h.2.2.1⟩

end D1

namespace Init

/-- Helper: insertion into the id-sorted worklist is a permutation. -/
theorem insertById_perm (u : UserRec) (l : List UserRec) :
    List.Perm (insertById u l) (u :: l) := by
  induction l with
  | nil => rfl
  | cons v rest ih =>
      rw [insertById]
      split
      · rfl
      · exact (ih.cons v).trans (List.Perm.swap u v rest)

/-- Helper: the ordered worklist is a permutation of its source. -/
theorem sortById_perm (l : List UserRec) : List.Perm (sortById l) l := by
  induction l with
  | nil => rfl
  | cons x xs ih =>
      exact (insertById_perm x (sortById xs)).trans (ih.cons x)

/-- Helper: insertion keeps the worklist sorted by ascending id. -/
theorem insertById_sorted {u : UserRec} {l : List UserRec}
    (h : l.Pairwise (fun a b => a.id ≤ b.id)) :
    (insertById u l).Pairwise (fun a b => a.id ≤ b.id) := by
  induction l with
  | nil => simp [insertById]
  | cons v rest ih =>
      rcases List.pairwise_cons.mp h with ⟨hv, hrest⟩
      rw [insertById]
      split
      · rename_i hle
        refine List.pairwise_cons.mpr ⟨?_, h⟩
        intro b hb
        rcases List.mem_cons.mp hb with rfl | hb'
        · exact hle
        · exact le_trans hle (hv b hb')
      · rename_i hgt
        refine List.pairwise_cons.mpr ⟨?_, ih hrest⟩
        intro b hb
        have hmem := (insertById_perm u rest).mem_iff.mp hb
        rcases List.mem_cons.mp hmem with rfl | hb'
        · omega
        · exact hv b hb'

/-- Helper: the worklist is sorted by ascending id. -/
theorem sortById_sorted (l : List UserRec) :
    (sortById l).Pairwise (fun a b => a.id ≤ b.id) := by
  induction l with
  | nil => exact List.Pairwise.nil
  | cons x xs ih => exact insertById_sorted ih

/-- Helper: the assignment loop pairs the worklist's ids in order. -/
theorem backfillLoop_map_fst (next : Int) (l : List UserRec) :
    (backfillLoop next l).map Prod.fst = l.map (fun u => u.id) := by
  induction l generalizing next with
  | nil => rfl
  | cons u rest ih => simp [backfillLoop, ih]

/-- Helper: the assignment loop hands out consecutive numbers. -/
theorem backfillLoop_map_snd (next : Int) (l : List UserRec) :
    (backfillLoop next l).map Prod.snd = consecFrom next l.length := by
  induction l generalizing next with
  | nil => rfl
  | cons u rest ih =>
      rw [backfillLoop, List.map_cons, ih, List.length_cons, consecFrom]

/-- Helper: the empty-worklist guard is redundant. -/
theorem backfillAssignments_eq (users : List UserRec) :
    backfillAssignments users =
      backfillLoop (backfillStart users)
        (sortById (users.filter (fun u => u.memberId == none))) := by
  simp only [backfillAssignments]
  split
  · rename_i hemp
    rw [List.isEmpty_iff.mp hemp]
    rfl
  · rfl

end Init

namespace Init

/-- C7 counterexample: with existing membership numbers {0}, `max + 1`
is 1, but the code's Python-truthiness test `if max_mid` treats the
maximum 0 like "no numbers exist" and starts at 1000 — refuting
"strictly increasing consecutive integers starting from max(existing
membership numbers)+1". -/
theorem C7_zero_max_counterexample :
    maxMemberId zeroMaxUsers = some 0 ∧
    backfillAssignments zeroMaxUsers = [(2, 1000)] ∧
    (1000 : Int) ≠ 0 + 1 :=
  ⟨rfl, rfl, by decide⟩

/-- C7 (amended): one backfill pass processes exactly the accounts
missing a membership number, in strictly ascending internal-id order
(ids are distinct), assigning consecutive integers starting at
`max(existing) + 1` when a nonzero maximum exists, and at 1000 when no
membership number exists OR the maximum equals 0 (the code's Python
truthiness test); e.g. existing {1000, 1002} with two new accounts in id
order yields {1003, 1004}. -/
theorem C7_backfill_behavior (users : List UserRec)
    (hids : (users.map (fun u => u.id)).Nodup) :
    List.Perm ((backfillAssignments users).map Prod.fst)
      ((users.filter (fun u => u.memberId == none)).map (fun u => u.id)) ∧
    ((backfillAssignments users).map Prod.fst).Pairwise (fun a b => a < b) ∧
    (backfillAssignments users).map Prod.snd =
      consecFrom (backfillStart users)
        (users.filter (fun u => u.memberId == none)).length ∧
    backfillStart users =
      (match maxMemberId users with
       | none => 1000
       | some m => if m = 0 then 1000 else m + 1) := by
  have hperm := sortById_perm (users.filter (fun u => u.memberId == none))
  refine ⟨?_, ?_, ?_, ?_⟩
  · rw [backfillAssignments_eq, backfillLoop_map_fst]
    exact hperm.map (fun u => u.id)
  · rw [backfillAssignments_eq, backfillLoop_map_fst]
    have hmap : ((sortById (users.filter (fun u => u.memberId == none))).map
        (fun u => u.id)).Pairwise (fun a b => a ≤ b) :=
      (sortById_sorted (users.filter (fun u => u.memberId == none))).map
        (fun (u : UserRec) => u.id) (fun _ _ h => h)
    have hndf : ((users.filter (fun u => u.memberId == none)).map
        (fun u => u.id)).Nodup :=
      ((List.filter_sublist users).map (fun u => u.id)).nodup hids
    have hnd : ((sortById (users.filter (fun u => u.memberId == none))).map
        (fun u => u.id)).Nodup :=
      ((hperm.map (fun u => u.id)).nodup_iff).mpr hndf
    exact (hmap.and hnd).imp (fun h => lt_of_le_of_ne h.1 h.2)
  · rw [backfillAssignments_eq, backfillLoop_map_snd, hperm.length_eq]
  · cases hm : maxMemberId users with
    | none => simp [backfillStart, hm]
    | some m =>
        by_cases h0 : m = 0
        · simp [backfillStart, hm, h0]
        · simp [backfillStart, hm, h0]

/-- C7 witness: the spec's own example, existing numbers {1000, 1002}
and accounts 3 and 4 missing one. -/
theorem C7_backfill_witness :
    (exUsers.map (fun u => u.id)).Nodup ∧
    backfillAssignments exUsers = [(3, 1003), (4, 1004)] ∧
    (backfillAssignments exUsers).map Prod.snd =
      consecFrom (backfillStart exUsers)
        (exUsers.filter (fun u => u.memberId == none)).length :=
  ⟨by decide, rfl, (C7_backfill_behavior exUsers (by decide)).2.2.1⟩

end Init

namespace Init

/-- Helper: the backfill pass touches only `memberId`, so the email
column survives it. -/
theorem backfillUsers_emails (users : List UserRec) :
    (backfillUsers users).map (fun u => u.email) =
      users.map (fun u => u.email) := by
  unfold backfillUsers
  rw [List.map_map]
  apply List.map_congr_left
  intro u _
  simp only [Function.comp_apply]
  cases hf : (backfillAssignments users).find? (fun p => p.1 == u.id) with
  | none => simp only [hf]
  | some pr => simp only [hf]

/-- Helper: the backfill pass inserts and removes no rows. -/
theorem backfillUsers_length (users : List UserRec) :
    (backfillUsers users).length = users.length :=
  List.length_map _ _

/-- Helper: counting accounts by email is invariant under backfill. -/
theorem backfillUsers_countP_email (users : List UserRec) (e : String) :
    (backfillUsers users).countP (fun u => u.email == e) =
      users.countP (fun u => u.email == e) := by
  have h1 : ∀ l : List UserRec,
      (l.map (fun u => u.email)).countP (fun s => s == e) =
        l.countP (fun u => u.email == e) := by
    intro l
    rw [List.countP_map]
    rfl
  rw [← h1, ← h1, backfillUsers_emails]

/-- Helper: the settings rows after one seed run. -/
theorem seed_settingsRows (email : String) (db : ConvDB) :
    (seedSequencer email db).settingsRows =
      (if db.settingsRows.isEmpty then db.settingsRows ++ [true]
       else db.settingsRows) := by
  unfold seedSequencer
  dsimp only
  split <;> split <;> rfl

/-- Helper: the user rows after one seed run. -/
theorem seed_users (email : String) (db : ConvDB) :
    (seedSequencer email db).users =
      (if ((backfillUsers db.users).find?
            (fun u => u.email == D1.pyLower email)).isSome then
        backfillUsers db.users
       else
        backfillUsers db.users ++
          [adminRow (D1.pyLower email) (nextUserId (backfillUsers db.users))]) := by
  unfold seedSequencer
  dsimp only
  split <;> split <;> rfl

/-- Helper: one seed run leaves exactly one account carrying the
configured (lower-cased) administrator email, provided there was at
most one before. -/
theorem seed_admin_count (email : String) (db : ConvDB)
    (h : db.users.countP (fun u => u.email == D1.pyLower email) ≤ 1) :
    (seedSequencer email db).users.countP
      (fun u => u.email == D1.pyLower email) = 1 := by
  rw [seed_users]
  have hbk := backfillUsers_countP_email db.users (D1.pyLower email)
  split
  · rename_i hfind
    rcases List.find?_isSome.mp hfind with ⟨u, hu, hpu⟩
    have hpos : 0 < (backfillUsers db.users).countP
        (fun u => u.email == D1.pyLower email) :=
      List.countP_pos_iff.mpr ⟨u, hu, hpu⟩
    omega
  · rename_i hfind
    have hnone : ∀ u ∈ backfillUsers db.users,
        ¬(u.email == D1.pyLower email) = true := by
      intro u hu
      have := List.find?_eq_none.mp (Option.not_isSome_iff_eq_none.mp hfind) u hu
      exact this
    have hzero : (backfillUsers db.users).countP
        (fun u => u.email == D1.pyLower email) = 0 :=
      List.countP_eq_zero.mpr hnone
    rw [List.countP_append, hzero]
    simp [adminRow, List.countP_cons]

/-- C9: starting from a state with at most one settings row and at most
one administrator-email account (the fresh database included), running
the seed sequencer twice leaves exactly one Site Settings row and
exactly one account with the configured administrator email; the second
run inserts neither a second settings row nor any user row. -/
theorem C9_seed_idempotent (email : String) (db0 : ConvDB)
    (hset : db0.settingsRows.length ≤ 1)
    (hadm : db0.users.countP (fun u => u.email == D1.pyLower email) ≤ 1) :
    (seedSequencer email (seedSequencer email db0)).settingsRows.length = 1 ∧
    (seedSequencer email (seedSequencer email db0)).users.countP
        (fun u => u.email == D1.pyLower email) = 1 ∧
    (seedSequencer email (seedSequencer email db0)).settingsRows =
      (seedSequencer email db0).settingsRows ∧
    (seedSequencer email (seedSequencer email db0)).users.length =
      (seedSequencer email db0).users.length := by
  have hs1 : (seedSequencer email db0).settingsRows.length = 1 := by
    rw [seed_settingsRows]
    split
    · rename_i hemp
      rw [List.isEmpty_iff.mp hemp]
      rfl
    · rename_i hemp
      have : db0.settingsRows ≠ [] := fun hnil => hemp (by rw [hnil]; rfl)
      have hlen : 0 < db0.settingsRows.length := List.length_pos.mpr this
      omega
  have hc1 : (seedSequencer email db0).users.countP
      (fun u => u.email == D1.pyLower email) = 1 :=
    seed_admin_count email db0 hadm
  have hs2 : (seedSequencer email (seedSequencer email db0)).settingsRows =
      (seedSequencer email db0).settingsRows := by
    rw [seed_settingsRows email (seedSequencer email db0)]
    have : (seedSequencer email db0).settingsRows ≠ [] := by
      intro hnil
      rw [hnil] at hs1
      exact absurd hs1 (by decide)
    rw [if_neg (by simpa [List.isEmpty_iff] using this)]
  have hfind2 : (((backfillUsers (seedSequencer email db0).users).find?
      (fun u => u.email == D1.pyLower email)).isSome) = true := by
    have : 0 < (backfillUsers (seedSequencer email db0).users).countP
        (fun u => u.email == D1.pyLower email) := by
      rw [backfillUsers_countP_email, hc1]
      omega
    rcases List.countP_pos_iff.mp this with ⟨u, hu, hpu⟩
    exact List.find?_isSome.mpr ⟨u, hu, hpu⟩
  have hu2 : (seedSequencer email (seedSequencer email db0)).users =
      backfillUsers (seedSequencer email db0).users := by
    rw [seed_users email (seedSequencer email db0), if_pos hfind2]
  refine ⟨?_, ?_, hs2, ?_⟩
  · rw [hs2, hs1]
  · rw [hu2, backfillUsers_countP_email, hc1]
  · rw [hu2, backfillUsers_length]

/-- C9 witness: the fresh, empty database. -/
theorem C9_seed_witness :
    emptyConvDB.settingsRows.length ≤ 1 ∧
    emptyConvDB.users.countP
      (fun u => u.email == D1.pyLower "Admin@Basira.org") ≤ 1 ∧
    (seedSequencer "Admin@Basira.org"
        (seedSequencer "Admin@Basira.org" emptyConvDB)).settingsRows.length
      = 1 ∧
    (seedSequencer "Admin@Basira.org"
        (seedSequencer "Admin@Basira.org" emptyConvDB)).users.countP
        (fun u => u.email == D1.pyLower "Admin@Basira.org") = 1 :=
  have h := C9_seed_idempotent "Admin@Basira.org" emptyConvDB
    (by decide) (by decide)
  ⟨by decide, by decide, h.1, h.2.1⟩

end Init

namespace Init

/-- Helper: a list holding two distinct members satisfying `p` counts at
least 2. -/
theorem two_le_countP {α : Type} (p : α → Bool) (l : List α) (a b : α)
    (ha : a ∈ l) (hb : b ∈ l) (hab : a ≠ b) (hpa : p a = true)
    (hpb : p b = true) : 2 ≤ l.countP p := by
  induction l with
  | nil => cases ha
  | cons x xs ih =>
      rcases List.mem_cons.mp ha with rfl | ha'
      · rcases List.mem_cons.mp hb with rfl | hb'
        · exact absurd rfl hab
        · have h1 : 0 < xs.countP p := List.countP_pos_iff.mpr ⟨b, hb', hpb⟩
          rw [List.countP_cons, if_pos hpa]
          omega
      · rcases List.mem_cons.mp hb with rfl | hb'
        · have h1 : 0 < xs.countP p := List.countP_pos_iff.mpr ⟨a, ha', hpa⟩
          rw [List.countP_cons, if_pos hpb]
          omega
        · have h2 := ih ha' hb'
          rw [List.countP_cons]
          omega

/-- Helper: counting with pointwise-equal predicates. -/
theorem countP_congr_mem {α : Type} (p q : α → Bool) (l : List α)
    (h : ∀ a ∈ l, p a = q a) : l.countP p = l.countP q := by
  induction l with
  | nil => rfl
  | cons x xs ih =>
      rw [List.countP_cons, List.countP_cons,
          h x (List.mem_cons_self x xs),
          ih (fun a ha => h a (List.mem_cons_of_mem _ ha))]

/-- Helper: with distinct ids, at most one row matches a given id. -/
theorem countP_id_le_one (hs : List HalqaRec) (v : Int)
    (hnd : (hs.map (fun h => h.id)).Nodup) :
    hs.countP (fun h => h.id == v) ≤ 1 := by
  induction hs with
  | nil => simp
  | cons x xs ih =>
      rw [List.map_cons, List.nodup_cons] at hnd
      rcases hnd with ⟨hx, hxs⟩
      rw [List.countP_cons]
      by_cases hv : (x.id == v) = true
      · have h0 : xs.countP (fun h => h.id == v) = 0 := by
          apply List.countP_eq_zero.mpr
          intro h hm hp
          apply hx
          rw [eq_of_beq hv]
          exact List.mem_map.mpr ⟨h, hm, eq_of_beq hp⟩
        rw [h0, if_pos hv]
      · have h1 := ih hxs
        rw [if_neg hv]
        omega

/-- Helper: under the at-most-one invariant bound, any two rows
supervised by `a` coincide. -/
theorem unique_holder (hs : List HalqaRec) (a : Int)
    (hle : supCount hs a ≤ 1) (old : HalqaRec) (hold : old ∈ hs)
    (holds : old.supervisorId = some a) :
    ∀ h ∈ hs, h.supervisorId = some a → h = old := by
  intro h hmem hsup
  by_contra hne
  have h2 := two_le_countP (fun g => g.supervisorId == some a) hs h old hmem
    hold hne (beq_iff_eq.mpr hsup) (beq_iff_eq.mpr holds)
  unfold supCount at hle
  omega

/-- Helper: clearing one row never increases a supervision count. -/
theorem supCount_clearSup_le (hs : List HalqaRec) (tid a : Int) :
    supCount (clearSup hs tid) a ≤ supCount hs a := by
  unfold supCount clearSup
  rw [List.countP_map]
  apply List.countP_mono_left
  intro h hmem hp
  simp only [Function.comp_apply] at hp
  by_cases ht : (h.id == tid) = true
  · rw [if_pos ht] at hp
    simp at hp
  · rw [if_neg ht] at hp
    exact hp

/-- Helper: when every row supervised by `a` carries the cleared id,
clearing leaves nobody supervised by `a`. -/
theorem supCount_clearSup_zero (hs : List HalqaRec) (tid a : Int)
    (hall : ∀ h ∈ hs, h.supervisorId = some a → h.id = tid) :
    supCount (clearSup hs tid) a = 0 := by
  unfold supCount clearSup
  rw [List.countP_map]
  apply List.countP_eq_zero.mpr
  intro h hmem
  simp only [Function.comp_apply]
  by_cases ht : (h.id == tid) = true
  · rw [if_pos ht]
    simp
  · rw [if_neg ht]
    intro hp
    exact ht (beq_iff_eq.mpr (hall h hmem (eq_of_beq hp)))

/-- Helper: a member of the cleared list carrying the cleared id has an
empty supervisor. -/
theorem mem_clearSup_id (hs : List HalqaRec) (tid : Int) (h : HalqaRec)
    (hm : h ∈ clearSup hs tid) (hid : h.id = tid) :
    h.supervisorId = none := by
  rcases List.mem_map.mp hm with ⟨g, hg, hfg⟩
  by_cases ht : (g.id == tid) = true
  · rw [if_pos ht] at hfg
    rw [← hfg]
  · rw [if_neg ht] at hfg
    subst hfg
    exact absurd (beq_iff_eq.mpr hid) ht

/-- Helper: clearing preserves the id column. -/
theorem clearSup_ids (hs : List HalqaRec) (tid : Int) :
    (clearSup hs tid).map (fun h => h.id) = hs.map (fun h => h.id) := by
  unfold clearSup
  rw [List.map_map]
  apply List.map_congr_left
  intro h _
  simp only [Function.comp_apply]
  by_cases ht : (h.id == tid) = true
  · rw [if_pos ht]
  · rw [if_neg ht]

/-- Helper: the running fold computing the maximum id dominates its
seed. -/
theorem le_foldl_max (hs : List HalqaRec) :
    ∀ init : Int, init ≤ hs.foldl (fun a g => max a g.id) init := by
  induction hs with
  | nil => intro init; exact le_refl init
  | cons x xs ih =>
      intro init
      exact le_trans (le_max_left init x.id) (ih (max init x.id))

/-- Helper: a member's id is dominated by the max-id fold. -/
theorem mem_le_foldl_max (h : HalqaRec) :
    ∀ (hs : List HalqaRec) (init : Int), h ∈ hs →
      h.id ≤ hs.foldl (fun a g => max a g.id) init := by
  intro hs
  induction hs with
  | nil => intro init hmem; cases hmem
  | cons x xs ih =>
      intro init hmem
      rcases List.mem_cons.mp hmem with rfl | hmem'
      · exact le_trans (le_max_right init h.id)
          (le_foldl_max xs (max init h.id))
      · exact ih (max init x.id) hmem'

/-- Helper: every existing row's id is below the fresh autoincrement
id. -/
theorem mem_id_lt_next (hs : List HalqaRec) (h : HalqaRec) (hm : h ∈ hs) :
    h.id < nextHalqaId hs := by
  unfold nextHalqaId
  have := mem_le_foldl_max h hs 0 hm
  omega

end Init

namespace Init

/-- Helper: a member of the cleared list either lost its supervisor or
is an untouched original row. -/
theorem mem_clearSup_cases (hs : List HalqaRec) (tid : Int) (g : HalqaRec)
    (hm : g ∈ clearSup hs tid) :
    g.supervisorId = none ∨ (g ∈ hs ∧ (g.id == tid) = false) := by
  rcases List.mem_map.mp hm with ⟨g0, hg0, hfg⟩
  by_cases ht : (g0.id == tid) = true
  · rw [if_pos ht] at hfg
    left
    rw [← hfg]
  · rw [if_neg ht] at hfg
    right
    subst hfg
    exact ⟨hg0, Bool.eq_false_iff.mpr ht⟩

/-- Helper: the supervisor value `update_halqa` writes onto the target
is always the requested id. -/
theorem updStep_snd (hs : List HalqaRec) (hid s : Int) (halqa : HalqaRec) :
    (updStep hs hid s halqa).2 = some s := by
  unfold updStep
  split
  · split <;> rfl
  · rfl

/-- Helper: the supervisor-change step preserves the id column. -/
theorem updStep_ids (hs : List HalqaRec) (hid s : Int) (halqa : HalqaRec) :
    (updStep hs hid s halqa).1.map (fun g => g.id) =
      hs.map (fun g => g.id) := by
  unfold updStep
  split
  · split
    · exact clearSup_ids hs _
    · rfl
  · rfl

/-- Helper: the supervisor-change step never raises a supervision
count. -/
theorem updStep_le (hs : List HalqaRec) (hid s : Int) (halqa : HalqaRec)
    (a : Int) : supCount (updStep hs hid s halqa).1 a ≤ supCount hs a := by
  unfold updStep
  split
  · split
    · exact supCount_clearSup_le hs _ a
    · exact le_refl _
  · exact le_refl _

/-- Helper: after the supervisor-change step, no row other than the
target is supervised by the requested account. -/
theorem updStep_no_other (hs : List HalqaRec) (hinv : supInvariant hs)
    (hid s : Int) (halqa : HalqaRec) (hs0 : s ≠ 0) (hmemh : halqa ∈ hs)
    (hhid : halqa.id = hid) :
    ∀ g ∈ (updStep hs hid s halqa).1, g.id ≠ hid →
      (g.supervisorId == some s) = false := by
  intro g hg hgid
  cases hb : (g.supervisorId == some s) with
  | false => rfl
  | true =>
      exfalso
      have hgs : g.supervisorId = some s := eq_of_beq hb
      unfold updStep at hg
      split at hg
      · split at hg
        · rename_i old2 hf
          have hg' := hg
          rcases mem_clearSup_cases hs old2.id g hg' with hnone | ⟨hmem, hne⟩
          · rw [hgs] at hnone
            cases hnone
          · have hp := List.find?_some hf
            rw [Bool.and_eq_true] at hp
            rcases hp with ⟨h1, _⟩
            have hmem2 := List.mem_of_find?_eq_some hf
            have := unique_holder hs s (hinv s hs0) old2 hmem2
              (eq_of_beq h1) g hmem hgs
            rw [this] at hne
            simp at hne
        · rename_i hf
          have := List.find?_eq_none.mp hf g hg
          apply this
          rw [Bool.and_eq_true]
          exact ⟨hb, bne_iff_ne.mpr hgid⟩
      · rename_i hcond
        have hcur : some s = halqa.supervisorId := by
          by_contra hne
          exact hcond (by simp [hs0, hne])
        have := unique_holder hs s (hinv s hs0) halqa hmemh hcur.symm g hg hgs
        exact hgid (by rw [this, hhid])

end Init

namespace Init

/-- Helper: the supervision count contributed by a single row. -/
theorem countP_singleton_sup (x : HalqaRec) (a : Int) :
    List.countP (fun g => g.supervisorId == some a) [x] =
      if x.supervisorId = some a then 1 else 0 := by
  rw [List.countP_cons, List.countP_nil]
  by_cases hx : x.supervisorId = some a
  · rw [if_pos (beq_iff_eq.mpr hx), if_pos hx]
  · rw [if_neg (fun hc => hx (eq_of_beq hc)), if_neg hx]

/-- Helper: writing the requested supervisor onto the target keeps the
at-most-one invariant, provided no other row holds that supervisor and
the step did not raise any count. -/
theorem setHalqaRow_invariant (base hs : List HalqaRec)
    (hinv : supInvariant hs) (hid s : Int) (newName : String)
    (hids : base.map (fun g => g.id) = hs.map (fun g => g.id))
    (hnd : (hs.map (fun g => g.id)).Nodup)
    (hble : ∀ a : Int, supCount base a ≤ supCount hs a)
    (hother : ∀ g ∈ base, g.id ≠ hid →
      (g.supervisorId == some s) = false) :
    supInvariant (setHalqaRow hid newName (some s) base) := by
  intro a ha
  unfold supCount setHalqaRow
  rw [List.countP_map]
  by_cases has : a = s
  · subst has
    have hcongr : ∀ g ∈ base,
        ((fun h => h.supervisorId == some a) ∘ (fun h =>
          if h.id == hid then
            { h with name := newName, supervisorId := some a }
          else h)) g = (g.id == hid) := by
      intro g hg
      simp only [Function.comp_apply]
      by_cases hgid : (g.id == hid) = true
      · rw [if_pos hgid, hgid]
        simp
      · rw [if_neg hgid, hother g hg (fun he => hgid (beq_iff_eq.mpr he))]
        cases hb : (g.id == hid) with
        | true => exact absurd hb hgid
        | false => rfl
    rw [countP_congr_mem _ _ _ hcongr]
    exact countP_id_le_one base hid (by rw [hids]; exact hnd)
  · have hmono : base.countP ((fun h => h.supervisorId == some a) ∘ (fun h =>
        if h.id == hid then
          { h with name := newName, supervisorId := some s }
        else h)) ≤ base.countP (fun h => h.supervisorId == some a) := by
      apply List.countP_mono_left
      intro g hg hp
      simp only [Function.comp_apply] at hp
      by_cases hgid : (g.id == hid) = true
      · rw [if_pos hgid] at hp
        exact absurd (Option.some.inj (eq_of_beq hp)).symm has
      · rw [if_neg hgid] at hp
        exact hp
    have h1 := hble a
    have h2 := hinv a ha
    unfold supCount at h1 h2
    omega

/-- Helper: after `update_halqa` writes the new supervisor, the account's
previous halqa (a different row) is left without a supervisor. -/
theorem updStep_old_cleared (hs : List HalqaRec) (hinv : supInvariant hs)
    (hid s : Int) (halqa : HalqaRec) (newName : String) (hs0 : s ≠ 0)
    (hmemh : halqa ∈ hs) (hhid : halqa.id = hid) :
    ∀ old ∈ hs, old.supervisorId = some s → old.id ≠ hid →
      ∀ h ∈ setHalqaRow hid newName (some s) (updStep hs hid s halqa).1,
        h.id = old.id → h.supervisorId = none := by
  intro old hold holds hoid h hmem hidEq
  unfold setHalqaRow at hmem
  rcases List.mem_map.mp hmem with ⟨g, hg, hfg⟩
  have hgid : g.id = old.id := by
    by_cases ht : (g.id == hid) = true
    · rw [if_pos ht] at hfg
      rw [← hfg] at hidEq
      exact hidEq
    · rw [if_neg ht] at hfg
      rw [hfg]
      exact hidEq
  have hne : (g.id == hid) = false := by
    cases hb : (g.id == hid) with
    | false => rfl
    | true =>
        exfalso
        apply hoid
        rw [← hgid]
        exact eq_of_beq hb
  have hhg : h = g := by
    rw [← hfg, if_neg (by rw [hne]; exact Bool.false_ne_true)]
  rw [hhg, ← hgid] at hidEq
  rw [hhg]
  clear hmem hfg hhg hidEq
  unfold updStep at hg
  split at hg
  · split at hg
    · rename_i old2 hf
      have hp := List.find?_some hf
      rw [Bool.and_eq_true] at hp
      have hmem2 := List.mem_of_find?_eq_some hf
      have heq : old2 = old := unique_holder hs s (hinv s hs0) old hold
        holds old2 hmem2 (eq_of_beq hp.1)
      rw [heq] at hg
      exact mem_clearSup_id hs old.id g hg hgid
    · rename_i hf
      exfalso
      apply List.find?_eq_none.mp hf old hold
      rw [Bool.and_eq_true]
      exact ⟨beq_iff_eq.mpr holds, bne_iff_ne.mpr hoid⟩
  · rename_i hcond
    exfalso
    have hcur : some s = halqa.supervisorId := by
      by_contra hne2
      exact hcond (by simp [hs0, hne2])
    have := unique_holder hs s (hinv s hs0) halqa hmemh hcur.symm old
      hold holds
    exact hoid (by rw [this, hhid])

/-- Helper: `update_halqa`, when it succeeds with a truthy requested
supervisor, preserves the invariant and clears the account's previous
halqa. -/
theorem updateHalqa_preserves (hs : List HalqaRec)
    (hinv : supInvariant hs) (hnd : (hs.map (fun g => g.id)).Nodup)
    (hid : Int) (nmU : Option String) (s : Int) (hs' : List HalqaRec)
    (hs0 : s ≠ 0) (hok : updateHalqa hs hid nmU (some s) = Except.ok hs') :
    supInvariant hs' ∧
    ∀ old ∈ hs, old.supervisorId = some s → old.id ≠ hid →
      ∀ h ∈ hs', h.id = old.id → h.supervisorId = none := by
  unfold updateHalqa at hok
  cases hfind : hs.find? (fun g => g.id == hid) with
  | none =>
      rw [hfind] at hok
      exact Except.noConfusion hok
  | some halqa =>
      simp only [hfind] at hok
      have hmemh : halqa ∈ hs := List.mem_of_find?_eq_some hfind
      have hhid : halqa.id = hid := by
        simpa using List.find?_some hfind
      have main : ∀ newName : String,
          setHalqaRow hid newName (updStep hs hid s halqa).2
              (updStep hs hid s halqa).1 = hs' →
          supInvariant hs' ∧
          ∀ old ∈ hs, old.supervisorId = some s → old.id ≠ hid →
            ∀ h ∈ hs', h.id = old.id → h.supervisorId = none := by
        intro newName hEq
        rw [updStep_snd] at hEq
        rw [← hEq]
        exact ⟨setHalqaRow_invariant (updStep hs hid s halqa).1 hs hinv hid
            s newName (updStep_ids hs hid s halqa) hnd
            (fun a => updStep_le hs hid s halqa a)
            (updStep_no_other hs hinv hid s halqa hs0 hmemh hhid),
          updStep_old_cleared hs hinv hid s halqa newName hs0 hmemh hhid⟩
      cases nmU with
      | none =>
          dsimp only at hok
          injection hok with h'
          exact main halqa.name h'
      | some rawnm =>
          dsimp only at hok
          by_cases hraw : (D1.pyTrim rawnm == "") = true
          · rw [if_pos hraw] at hok
            exact Except.noConfusion hok
          · rw [if_neg hraw] at hok
            injection hok with h'
            exact main (D1.pyTrim rawnm) h'

end Init

namespace Init

/-- Helper: `create_halqa`, when it succeeds with a truthy requested
supervisor, preserves the invariant and clears the account's previous
halqa. -/
theorem createHalqa_preserves (hs : List HalqaRec)
    (hinv : supInvariant hs) (_hnd : (hs.map (fun g => g.id)).Nodup)
    (nm : String) (s : Int) (hs' : List HalqaRec) (hs0 : s ≠ 0)
    (hok : createHalqa hs nm (some s) = Except.ok hs') :
    supInvariant hs' ∧
    ∀ old ∈ hs, old.supervisorId = some s →
      ∀ h ∈ hs', h.id = old.id → h.supervisorId = none := by
  unfold createHalqa at hok
  dsimp only at hok
  split at hok
  · exact Except.noConfusion hok
  · split at hok
    · exact Except.noConfusion hok
    · have htr : truthyId (some s) = true := decide_eq_true hs0
      rw [if_pos htr] at hok
      cases hf : hs.find? (fun h => h.supervisorId == some s) with
      | some fOld =>
          simp only [hf] at hok
          injection hok with hEq
          have hfmem := List.mem_of_find?_eq_some hf
          have hfsup : fOld.supervisorId = some s := by
            simpa using List.find?_some hf
          have huniq := unique_holder hs s (hinv s hs0) fOld hfmem hfsup
          rw [← hEq]
          constructor
          · intro a ha
            unfold supCount
            rw [List.countP_append, countP_singleton_sup]
            by_cases has : a = s
            · subst has
              have hz := supCount_clearSup_zero hs fOld.id a
                (fun g hg hgs => by rw [huniq g hg hgs])
              unfold supCount at hz
              rw [hz, if_pos rfl]
            · have hle1 := supCount_clearSup_le hs fOld.id a
              have hle2 := hinv a ha
              unfold supCount at hle1 hle2
              rw [if_neg (fun hc => has (Option.some.inj hc).symm)]
              omega
          · intro old hold holds h hmem hid2
            have hfo : fOld = old := (huniq old hold holds).symm
            rcases List.mem_append.mp hmem with hmc | hmn
            · rw [hfo] at hmc
              exact mem_clearSup_id hs old.id h hmc hid2
            · exfalso
              rw [List.mem_singleton.mp hmn] at hid2
              have hlt := mem_id_lt_next hs old hold
              simp only at hid2
              omega
      | none =>
          simp only [hf] at hok
          injection hok with hEq
          have hnone := List.find?_eq_none.mp hf
          rw [← hEq]
          constructor
          · intro a ha
            unfold supCount
            rw [List.countP_append, countP_singleton_sup]
            by_cases has : a = s
            · subst has
              rw [List.countP_eq_zero.mpr (fun g hg => hnone g hg),
                  if_pos rfl]
            · have hle2 := hinv a ha
              unfold supCount at hle2
              rw [if_neg (fun hc => has (Option.some.inj hc).symm)]
              omega
          · intro old hold holds _h _hmem _hid2
            exact absurd (beq_iff_eq.mpr holds) (hnone old hold)

/-- C8: assigning a supervisor account (a truthy id `s`) to a halqa —
through `create_halqa` or `update_halqa` — preserves the invariant that
an account supervises at most one halqa, and the halqa that account
previously supervised ends up with an empty `supervisor_id`. -/
theorem C8_supervisor_uniqueness (hs : List HalqaRec)
    (hinv : supInvariant hs) (hnd : (hs.map (fun g => g.id)).Nodup) :
    (∀ nm s hs', s ≠ 0 → createHalqa hs nm (some s) = Except.ok hs' →
        supInvariant hs' ∧
        ∀ old ∈ hs, old.supervisorId = some s →
          ∀ h ∈ hs', h.id = old.id → h.supervisorId = none) ∧
    (∀ hid nmU s hs', s ≠ 0 →
        updateHalqa hs hid nmU (some s) = Except.ok hs' →
        supInvariant hs' ∧
        ∀ old ∈ hs, old.supervisorId = some s → old.id ≠ hid →
          ∀ h ∈ hs', h.id = old.id → h.supervisorId = none) :=
  ⟨fun nm s hs' hs0 hok =>
      createHalqa_preserves hs hinv hnd nm s hs' hs0 hok,
   fun hid nmU s hs' hs0 hok =>
      updateHalqa_preserves hs hinv hnd hid nmU s hs' hs0 hok⟩

/-- C8 witness: creating "Halqa B" supervised by account 5, who already
supervises "Halqa A", clears "Halqa A"'s supervisor in the same
operation. -/
theorem C8_supervisor_witness :
    supInvariant exHalqas ∧
    createHalqa exHalqas "Halqa B" (some 5) =
      Except.ok [{ id := 1, name := "Halqa A", supervisorId := none },
                 { id := 2, name := "Halqa B", supervisorId := some 5 }] ∧
    (∀ h ∈ [({ id := 1, name := "Halqa A", supervisorId := none } : HalqaRec),
            { id := 2, name := "Halqa B", supervisorId := some 5 }],
       h.id = (1 : Int) → h.supervisorId = none) := by
  have hinv : supInvariant exHalqas := fun a _ =>
    List.countP_le_length _
  refine ⟨hinv, rfl, ?_⟩
  have h := ((C8_supervisor_uniqueness exHalqas hinv (by decide)).1
    "Halqa B" 5
    [{ id := 1, name := "Halqa A", supervisorId := none },
     { id := 2, name := "Halqa B", supervisorId := some 5 }]
    (by decide) rfl).2
  exact h { id := 1, name := "Halqa A", supervisorId := some 5 }
    (List.mem_singleton.mpr rfl) rfl

end Init
